import Mathlib

set_option maxHeartbeats 1000000

/-!
Verification of the BM25 search tool (packages/core/src/tools/bm25-search.ts).

The TypeScript source is shallowly embedded below.  Pure string and list
manipulation is translated directly; the file system, the glob enumeration,
Node's `statSync`, and the external `okapibm25` scoring library are modelled
as oracle fields of a `ToolEnv` record, constrained only where the spec
states a contract for them.  JavaScript numbers used as loop indices are
modelled as `Int`; the chunking `for`-loop, whose step `chunkSize - overlap`
can be non-positive for unvalidated parameters, is given a fuel argument
(`none` models a loop that runs past every bound, i.e. non-termination).
-/

/-- JS `content.split(/\r?\n/)`: both a CRLF pair and a lone LF end a line;
a lone CR is an ordinary character.  JS `split` on a regex never returns an
empty array: an empty string yields `[""]`. -/
def splitLinesAux : List Char → List Char → List String
  | [], acc => [String.mk acc.reverse]
  | '\r' :: '\n' :: rest, acc => String.mk acc.reverse :: splitLinesAux rest []
  | '\n' :: rest, acc => String.mk acc.reverse :: splitLinesAux rest []
  | c :: rest, acc => splitLinesAux rest (c :: acc)

/-- Line splitting of a file's content, as in `createChunks`. -/
def splitLines (content : String) : List String :=
  splitLinesAux content.data []

/-- JS `\w` (non-unicode): ASCII letters, digits and underscore. -/
def isWordChar (c : Char) : Bool :=
  c.isAlphanum || c = '_'

/-- JS `query.split(/\W+/)`: the Boolean state records whether the scan is
inside a separator run; `acc` holds the current word run reversed.  A
leading separator run produces a leading empty piece and a trailing
separator run a trailing empty piece, exactly as JS `split` does; an empty
string yields `[[]]`. -/
def splitNonWord : List Char → Bool → List Char → List (List Char)
  | [], false, acc => [acc.reverse]
  | [], true, _ => [[]]
  | c :: rest, false, acc =>
    if isWordChar c then splitNonWord rest false (c :: acc)
    else acc.reverse :: splitNonWord rest true []
  | c :: rest, true, _ =>
    if isWordChar c then splitNonWord rest false [c]
    else splitNonWord rest true []

/-- The token list handed to the ranking function:
`params.query.split(/\W+/)` (line 198 of the source). -/
def queryTokens (q : String) : List String :=
  (splitNonWord q.data false []).map String.mk

/-- JS `Array.prototype.slice` index clamping: negative indices count from
the end, indices beyond the length are clamped. -/
def jsSliceIdx (len : Nat) (x : Int) : Nat :=
  if x < 0 then ((len : Int) + x).toNat else min x.toNat len

/-- JS `l.slice(b, e)`. -/
def jsSlice {α : Type} (l : List α) (b e : Int) : List α :=
  (l.take (jsSliceIdx l.length e)).drop (jsSliceIdx l.length b)

/-- A chunk record, as pushed by `createChunks`: owning file path, 1-based
inclusive start and end lines, and the chunk's text. -/
structure Chunk where
  filePath : String
  startLine : Int
  endLine : Int
  content : String
  deriving DecidableEq, Repr

/-- The `for (let i = 0; i < lines.length; i += chunkSize - overlap)` loop of
`createChunks` (lines 287-305 of the source), with an explicit fuel:
`none` means the loop ran more iterations than the given fuel, which for
fuel `lines.length + 1` happens exactly when the JS loop never exits. -/
def chunkLoop (name : String) (lines : List String) (chunkSize overlap : Int) :
    Nat → Int → List Chunk → Option (List Chunk)
  | 0, _, _ => none
  | fuel + 1, i, acc =>
    if i < (lines.length : Int) then
      let endLine : Int := min (i + chunkSize) (lines.length : Int)
      let c : Chunk :=
        { filePath := name, startLine := i + 1, endLine := endLine,
          content := String.intercalate ("\n") (jsSlice lines i endLine) }
      if endLine = (lines.length : Int) then some (acc ++ [c])
      else chunkLoop name lines chunkSize overlap fuel (i + (chunkSize - overlap)) (acc ++ [c])
    else some acc

/-- Chunking of one file's content (the body of the `for await` loop of
`createChunks`): split into lines, skip the file if the line array is empty,
then run the chunking loop from index 0. -/
def chunkFile (name : String) (content : String) (chunkSize overlap : Int) :
    Option (List Chunk) :=
  let lines := splitLines content
  if lines.length = 0 then some []
  else chunkLoop name lines chunkSize overlap (lines.length + 1) 0 []

/-- Helper for the chunking theorems: the chunk the loop pushes at (0-based)
line index `i`. -/
def mkChunk (name : String) (lines : List String) (S i : Nat) : Chunk :=
  { filePath := name, startLine := (i : Int) + 1,
    endLine := ((min (i + S) lines.length : Nat) : Int),
    content := String.intercalate ("\n") ((lines.take (min (i + S) lines.length)).drop i) }

/-- Helper for the chunking theorems: the chunks produced from index `i` on,
for natural parameters with `overlap < chunkSize`. -/
def chunksFrom (name : String) (lines : List String) (S O : Nat) (i : Nat) : List Chunk :=
  if h : O < S ∧ i < lines.length then
    if hle : lines.length ≤ i + S then [mkChunk name lines S i]
    else mkChunk name lines S i :: chunksFrom name lines S O (i + (S - O))
  else []
termination_by lines.length - i
decreasing_by
  obtain ⟨h1, h2⟩ := h
  omega

/-- Helper for the chunking theorems: the number of chunks produced from
index `i` on. -/
def cntFrom (L S O i : Nat) : Nat :=
  if L ≤ i + S then 1 else (L - i - O + (S - O) - 1) / (S - O)

/-- Result of Node's `fs.statSync`, as an oracle value: either stats with a
directory flag, or a failure carrying whether it is a node error, its `code`,
and its string rendering (the result of JS string interpolation `errorvalue`
inside a template literal). -/
inductive StatResult where
  | found (isDirectory : Bool)
  | failed (isNode : Bool) (code : String) (rendered : String)

/-- The tool's environment: configuration plus oracles for everything the
source reaches outside its own module (workspace configuration, `statSync`,
the glob file enumeration with file contents, and the okapibm25 scorer).
Absolute paths are segment lists. -/
structure ToolEnv where
  targetDir : List String
  workspaceDirs : List (List String)
  stat : List String → StatResult
  listFiles : List String → String → List String → List (String × String)
  ranker : List String → List String → List ℚ

/-- The request parameters (`BM25SearchToolParams`); `includeGlob` embeds the
`include` field. -/
structure SearchParams where
  query : String
  path : Option String
  includeGlob : Option String
  chunk_size : Option Int
  overlap : Option Int

/-- Render a segment-list path as a POSIX path string. -/
def renderPath (segs : List String) : String :=
  "/" ++ String.intercalate ("/") segs

/-- Modelled from the spec: Node `path.resolve` normalization of `.` and
`..` segments (the `path` module is external to the repository). -/
def normalizeSegs (segs : List String) : List String :=
  segs.foldl
    (fun acc seg =>
      if seg = ".." then acc.dropLast
      else if seg = "." then acc
      else acc ++ [seg]) []

/-- Split a path string at `/` characters. -/
def parseSegsAux : List Char → List Char → List String
  | [], acc => [String.mk acc.reverse]
  | c :: rest, acc =>
    if c = '/' then String.mk acc.reverse :: parseSegsAux rest []
    else parseSegsAux rest (c :: acc)

/-- Path-string parsing into segments; empty segments collapse, `.` and `..`
survive for `normalizeSegs`. -/
def parseSegs (s : String) : List String :=
  (parseSegsAux s.data []).filter (fun seg => seg ≠ "")

/-- Whether a POSIX path string is absolute. -/
def isAbsPath (s : String) : Bool :=
  match s.data with
  | c :: _ => c = '/'
  | [] => false

/-- Modelled from the spec: Node `path.resolve(base, s)` (POSIX): an
absolute `s` stands alone, a relative one is resolved against `base`; the
result is normalized. -/
def resolvePath (base : List String) (s : String) : List String :=
  if isAbsPath s then normalizeSegs (parseSegs s)
  else normalizeSegs (base ++ parseSegs s)

/-- Modelled from the spec: `WorkspaceContext.isPathWithinWorkspace` (outside
src/) holds when the resolved path equals or descends from at least one
permitted workspace root (spec section 4.1). -/
def isPathWithinWorkspace (dirs : List (List String)) (target : List String) : Bool :=
  dirs.any (fun d => d.isPrefixOf target)

/-- The out-of-workspace message thrown at lines 115-119 of the source. -/
def outOfWorkspaceMsg (attempted : String) (dirs : List (List String)) : String :=
  "Path validation failed: Attempted path \"" ++ attempted ++
    "\" resolves outside the allowed workspace directories: " ++
    String.intercalate (", ") (dirs.map renderPath)

/-- The `Failed to access path stats` message thrown at line 131. -/
def statsFailMsg (target : List String) (rendered : String) : String :=
  "Failed to access path stats for " ++ renderPath target ++ ": " ++ rendered

/-- JS rendering of the `Path is not a directory` Error thrown at line 125
when it is re-interpolated by the catch block. -/
def notDirectoryMsg (target : List String) : String :=
  "Error: Path is not a directory: " ++ renderPath target

/-- `resolveAndValidatePath` (lines 106-137 of the source).  The try/catch
is unfolded: the not-a-directory Error thrown inside the `try` is itself
caught by the `catch`, where `isNodeError` fails for it, so it reaches the
final `throw` wrapped in the stats-failure message.  Note the `catch` tests
`error.code !== 'ENOENT'` for the `Path does not exist` throw. -/
def resolveAndValidatePath (env : ToolEnv) (relativePath : Option String) :
    Except String (Option (List String)) :=
  match relativePath with
  | none => Except.ok none
  | some rp =>
    if rp = "" then Except.ok none
    else
      let targetPath := resolvePath env.targetDir rp
      if isPathWithinWorkspace env.workspaceDirs targetPath then
        match env.stat targetPath with
        | StatResult.found true => Except.ok (some targetPath)
        | StatResult.found false =>
          Except.error (statsFailMsg targetPath (notDirectoryMsg targetPath))
        | StatResult.failed isNode code rendered =>
          if isNode ∧ code ≠ "ENOENT" then
            Except.error ("Path does not exist: " ++ renderPath targetPath)
          else Except.error (statsFailMsg targetPath rendered)
      else Except.error (outOfWorkspaceMsg rp env.workspaceDirs)

/-- Modelled from the spec: `SchemaValidator.validate` (outside src/) checks
only JSON type and requiredness (spec section 6); a well-typed
`SearchParams` value always passes, and no numeric range is checked. -/
def schemaValidate (_p : SearchParams) : Option String :=
  none

/-- `validateToolParams` (lines 139-154 of the source): schema validation,
then — only when `params.path` is truthy — the path resolution check, whose
thrown message becomes the returned error string. -/
def validateToolParams (env : ToolEnv) (p : SearchParams) : Option String :=
  match schemaValidate p with
  | some e => some e
  | none =>
    match p.path with
    | none => none
    | some rp =>
      if rp = "" then none
      else
        match resolveAndValidatePath env (some rp) with
        | Except.ok _ => none
        | Except.error e => some e

/-- Whether a token occurs in a chunk's text. -/
def tokenOccurs (t doc : String) : Bool :=
  decide (List.IsInfix t.data doc.data)

/-- Modelled from the spec: the per-chunk contract of the external
`okapibm25` scorer (spec section 4.4, clause b) — a document (chunk)
containing none of the query tokens must score at most zero.  This is the
only property of the scoring library the theorems rely on. -/
def RankerContract (r : List String → List String → List ℚ) : Prop :=
  ∀ (docs toks : List String) (i : Nat) (hi : i < (r docs toks).length)
    (hd : i < docs.length),
    (∀ t ∈ toks, tokenOccurs t (docs.get ⟨i, hd⟩) = false) →
    (r docs toks).get ⟨i, hi⟩ ≤ 0

/-- The score/chunk pairing and positivity filter of `execute`
(lines 202-207): `scores[index]` for an index beyond the score list is JS
`undefined`, which fails `score > 0` just as the truncation of `zip` drops
it. -/
def positiveScored (chunks : List Chunk) (scores : List ℚ) : List (Chunk × ℚ) :=
  (chunks.zip scores).filter (fun pr => decide (0 < pr.2))

/-- The `scoredChunks.sort((a, b) => b.score - a.score)` of line 209: a
stable descending sort by score, realized as Mathlib's stable insertion
sort (ECMAScript mandates sort stability, and a stable sort under a fixed
comparator is unique). -/
def sortByScoreDesc (l : List (Chunk × ℚ)) : List (Chunk × ℚ) :=
  List.insertionSort (fun a b => b.2 ≤ a.2) l

/-- `execute`'s result selection (lines 202-211): filter to strictly
positive scores, sort descending, keep the first 10. -/
def selectTopResults (chunks : List Chunk) (scores : List ℚ) : List (Chunk × ℚ) :=
  (sortByScoreDesc (positiveScored chunks scores)).take 10

/-- The `matchCount` of line 218: the length of the (truncated) top-results
list. -/
def matchCountOf (chunks : List Chunk) (scores : List ℚ) : Nat :=
  (selectTopResults chunks scores).length

/-- The singular/plural wording of line 219. -/
def matchTerm (n : Nat) : String :=
  if n = 1 then "match" else "matches"

/-- The ordering property named by the spec: scores strictly decreasing
along the result list. -/
def StrictlyDescending (l : List (Chunk × ℚ)) : Prop :=
  l.Pairwise (fun a b => b.2 < a.2)

/-- Fixed four-decimal rendering of a score (`score.toFixed(4)`). -/
def formatFixed4 (q : ℚ) : String :=
  let n : Int := Rat.floor (q * 10000 + 1 / 2)
  let a := n.natAbs
  let frac := toString (a % 10000)
  (if n < 0 then "-" else "") ++ toString (a / 10000) ++ "." ++
    String.mk (List.replicate (4 - frac.length) '0') ++ frac

/-- One result block of the report (lines 224-234). -/
def resultBlock (r : Chunk × ℚ) : String :=
  "File: " ++ r.1.filePath ++ " (Lines " ++ toString r.1.startLine ++ "-" ++
    toString r.1.endLine ++ ")\n" ++ "Score: " ++ formatFixed4 r.2 ++ "\n" ++
    "Content:\n" ++ r.1.content ++ "\n---\n"

/-- The formatted report of lines 218-237, ending with JS `trim()`. -/
def formatReport (q : String) (top : List (Chunk × ℚ)) : String :=
  ("Found " ++ toString top.length ++ " " ++ matchTerm top.length ++
      " for query \"" ++ q ++ "\":\n---\n" ++
      String.join (top.map resultBlock)).trim

/-- `searchDirDisplay` (line 171): `params.path || '.'`. -/
def searchDirDisplay (p : SearchParams) : String :=
  match p.path with
  | some rp => if rp = "" then "." else rp
  | none => "."

/-- The `(filter: "...")` suffix of the no-files / no-matches messages. -/
def filterSuffix (p : SearchParams) : String :=
  match p.includeGlob with
  | some i => if i = "" then "" else " (filter: \"" ++ i ++ "\")"
  | none => ""

/-- The no-files message of line 193. -/
def noFilesMsg (p : SearchParams) : String :=
  "No files found to search for query \"" ++ p.query ++ "\" " ++
    (if searchDirDisplay p = "" then "" else "in path \"" ++ searchDirDisplay p ++ "\"") ++
    filterSuffix p ++ "."

/-- The no-matches message of line 214. -/
def noMatchesMsg (p : SearchParams) : String :=
  "No matches found for query \"" ++ p.query ++ "\" " ++
    (if searchDirDisplay p = "" then "" else "in path \"" ++ searchDirDisplay p ++ "\"") ++
    filterSuffix p ++ "."

/-- A `ToolResult`'s two strings. -/
structure ExecResult where
  llmContent : String
  returnDisplay : String
  deriving DecidableEq, Repr

/-- The fixed ignore list of `createChunks` (lines 259-265). -/
def ignorePatterns : List String :=
  [".git/**", "node_modules/**", "bower_components/**", ".svn/**", ".hg/**"]

/-- `include ? include : '**/*'` (line 258). -/
def globPatternOf (inc : Option String) : String :=
  match inc with
  | some i => if i = "" then "**/*" else i
  | none => "**/*"

/-- Chunk every enumerated file in order, concatenating the chunk lists; a
diverging per-file loop makes the whole enumeration diverge. -/
def chunkFiles (files : List (String × String)) (chunkSize overlap : Int) :
    Option (List Chunk) :=
  match files with
  | [] => some []
  | f :: rest => do
    let cs ← chunkFile f.1 f.2 chunkSize overlap
    let rs ← chunkFiles rest chunkSize overlap
    pure (cs ++ rs)

/-- `createChunks` for one search directory (lines 250-317): glob
enumeration via the oracle, then per-file chunking.  The oracle's returned
file names already carry `path.relative(...) || path.basename(...)`. -/
def createChunks (env : ToolEnv) (absolutePath : List String) (inc : Option String)
    (chunkSize overlap : Int) : Option (List Chunk) :=
  chunkFiles (env.listFiles absolutePath (globPatternOf inc) ignorePatterns)
    chunkSize overlap

/-- The per-root accumulation loop of `execute` (lines 180-190). -/
def gatherAllChunks (env : ToolEnv) (inc : Option String) (chunkSize overlap : Int) :
    List (List String) → Option (List Chunk)
  | [] => some []
  | d :: ds => do
    let cs ← createChunks env d inc chunkSize overlap
    let rs ← gatherAllChunks env inc chunkSize overlap ds
    pure (cs ++ rs)

/-- The search-directory selection of lines 173-178. -/
def chosenDirs (env : ToolEnv) (dopt : Option (List String)) : List (List String) :=
  match dopt with
  | none => env.workspaceDirs
  | some d => [d]

/-- `params.chunk_size ?? 100` (line 185). -/
def effectiveChunkSize (p : SearchParams) : Int :=
  p.chunk_size.getD 100

/-- `params.overlap ?? 20` (line 186). -/
def effectiveOverlap (p : SearchParams) : Int :=
  p.overlap.getD 20

/-- `execute` (lines 156-248): parameter validation, path resolution (whose
failure would be caught by the outer catch), chunk gathering, the no-files
short-circuit, scoring, selection, the no-matches short-circuit, and report
formatting.  `none` models a non-terminating chunking loop. -/
def execute (env : ToolEnv) (p : SearchParams) : Option ExecResult :=
  match validateToolParams env p with
  | some e =>
    some { llmContent := "Error: Invalid parameters provided. Reason: " ++ e,
           returnDisplay := "Model provided invalid parameters. Error: " ++ e }
  | none =>
    match resolveAndValidatePath env p.path with
    | Except.error e =>
      some { llmContent := "Error during BM25 search operation: " ++ e,
             returnDisplay := "Error: " ++ e }
    | Except.ok dopt =>
      match gatherAllChunks env p.includeGlob (effectiveChunkSize p) (effectiveOverlap p)
          (chosenDirs env dopt) with
      | none => none
      | some allChunks =>
        if allChunks.length = 0 then
          some { llmContent := noFilesMsg p, returnDisplay := "No files found" }
        else
          let scores := env.ranker (allChunks.map Chunk.content) (queryTokens p.query)
          let top := selectTopResults allChunks scores
          if top.length = 0 then
            some { llmContent := noMatchesMsg p, returnDisplay := "No matches found" }
          else
            some { llmContent := formatReport p.query top,
                   returnDisplay := "Found " ++ toString top.length ++ " " ++ matchTerm top.length }

instance : IsTotal (Chunk × ℚ) (fun a b => b.2 ≤ a.2) :=
  ⟨fun a b => le_total b.2 a.2⟩

instance : IsTrans (Chunk × ℚ) (fun a b => b.2 ≤ a.2) :=
  ⟨fun _ _ _ h1 h2 => le_trans h2 h1⟩

/-! Concrete fixtures used by counterexamples and witnesses. -/

/-- Environment whose stat oracle fails with a node ENOENT error (the path
does not exist). -/
def envStatEnoent : ToolEnv :=
  { targetDir := ["w"], workspaceDirs := [["w"]],
    stat := fun _ => StatResult.failed true ("ENOENT")
      ("Error: ENOENT: no such file or directory, stat /w/sub"),
    listFiles := fun _ _ _ => [], ranker := fun _ _ => [] }

/-- Environment whose stat oracle fails with a node EACCES error (the path
exists but stats are inaccessible). -/
def envStatEacces : ToolEnv :=
  { targetDir := ["w"], workspaceDirs := [["w"]],
    stat := fun _ => StatResult.failed true ("EACCES")
      ("Error: EACCES: permission denied, stat /w/sub"),
    listFiles := fun _ _ _ => [], ranker := fun _ _ => [] }

/-- Environment with one two-line file, used to drive the chunking loop with
unvalidated parameters. -/
def envDiverge : ToolEnv :=
  { targetDir := ["w"], workspaceDirs := [["w"]],
    stat := fun _ => StatResult.found true,
    listFiles := fun _ _ _ => [(("f.txt"), ("a\nb"))],
    ranker := fun docs _ => docs.map (fun _ => 1) }

/-- Schema-valid parameters with `chunk_size = 0` and `overlap = 5`. -/
def paramsDiverge : SearchParams :=
  { query := "q", path := none, includeGlob := none,
    chunk_size := some 0, overlap := some 5 }

/-- Environment whose enumeration yields no files at all. -/
def envNoFiles : ToolEnv :=
  { targetDir := ["w"], workspaceDirs := [["w"]],
    stat := fun _ => StatResult.found true,
    listFiles := fun _ _ _ => [], ranker := fun _ _ => [] }

/-- Environment with one file and a ranker that scores every chunk zero
(vacuously satisfying the ranker contract). -/
def envNoMatches : ToolEnv :=
  { targetDir := ["w"], workspaceDirs := [["w"]],
    stat := fun _ => StatResult.found true,
    listFiles := fun _ _ _ => [(("a.txt"), ("hello\nworld"))],
    ranker := fun docs _ => docs.map (fun _ => 0) }

/-- A plain query-only request. -/
def paramsPlain : SearchParams :=
  { query := "zzz", path := none, includeGlob := none,
    chunk_size := none, overlap := none }

/-- Workspace rooted at /home/u/p. -/
def envOow : ToolEnv :=
  { targetDir := ["home", "u", "p"], workspaceDirs := [["home", "u", "p"]],
    stat := fun _ => StatResult.found true,
    listFiles := fun _ _ _ => [(("a.txt"), ("x"))],
    ranker := fun docs _ => docs.map (fun _ => 1) }

/-- A request whose path climbs out of the workspace with `..` segments. -/
def paramsOow : SearchParams :=
  { query := "q", path := some ("../../etc"), includeGlob := none,
    chunk_size := none, overlap := none }

/-- A first concrete chunk. -/
def chunkA : Chunk :=
  { filePath := "f", startLine := 1, endLine := 2, content := "x" }

/-- A second concrete chunk. -/
def chunkB : Chunk :=
  { filePath := "f", startLine := 3, endLine := 4, content := "y" }

/-- Eleven distinct chunks. -/
def chunks11 : List Chunk :=
  (List.range 11).map (fun i =>
    { filePath := "f", startLine := (i : Int) + 1, endLine := (i : Int) + 1,
      content := "x" })

/-- Eleven unit scores. -/
def scores11 : List ℚ :=
  List.replicate 11 1

/-! Infrastructure lemmas. -/

theorem splitLinesAux_ne_nil (l acc : List Char) : splitLinesAux l acc ≠ [] := by
  induction l, acc using splitLinesAux.induct <;> simp_all [splitLinesAux]

theorem splitLines_length_pos (content : String) : 0 < (splitLines content).length :=
  List.length_pos.mpr (splitLinesAux_ne_nil content.data [])

theorem jsSliceIdx_coe (len a : Nat) : jsSliceIdx len (a : Int) = min a len := by
  unfold jsSliceIdx
  rw [if_neg (by omega)]
  omega

theorem jsSlice_coe {α : Type} (l : List α) (a b : Nat) :
    jsSlice l (a : Int) (b : Int) = (l.take b).drop a := by
  unfold jsSlice
  rw [jsSliceIdx_coe, jsSliceIdx_coe]
  have h1 : l.take (min b l.length) = l.take b := by
    rcases le_total b l.length with hb | hb
    · rw [min_eq_left hb]
    · rw [min_eq_right hb, List.take_length, List.take_of_length_le hb]
  rw [h1]
  rcases le_total a l.length with ha | ha
  · rw [min_eq_left ha]
  · rw [min_eq_right ha, List.drop_eq_nil_of_le, List.drop_eq_nil_of_le]
    · simp only [List.length_take]
      omega
    · simp only [List.length_take]
      omega

theorem sum_le_helper (t r x d : Nat) (h1 : t + r = x + d - 1) (h2 : r < d)
    (hx : 1 ≤ x) : x ≤ t := by
  omega

theorem ceil_eq_two (x d : Nat) (hd : 1 ≤ d) (h1 : d < x) (h2 : x ≤ 2 * d) :
    (x + d - 1) / d = 2 := by
  apply Nat.div_eq_of_lt_le <;> omega

theorem ceil_succ (x d : Nat) (hd : 0 < d) (h : d < x) :
    (x + d - 1) / d = (x - d + d - 1) / d + 1 := by
  have hx : x + d - 1 = (x - d + d - 1) + d := by omega
  rw [hx, Nat.add_div_right _ hd]

theorem ceil_pred (x d : Nat) (hd : 0 < d) (hx : 1 ≤ x) :
    (x + d - 1) / d = (x - 1) / d + 1 := by
  have hx2 : x + d - 1 = (x - 1) + d := by omega
  rw [hx2, Nat.add_div_right _ hd]

theorem ceil_mul_ge (x d : Nat) (hd : 0 < d) (hx : 1 ≤ x) :
    x ≤ d * ((x + d - 1) / d) :=
  sum_le_helper _ ((x + d - 1) % d) x d (Nat.div_add_mod _ _) (Nat.mod_lt _ hd) hx

theorem mem_sortByScoreDesc {l : List (Chunk × ℚ)} {x : Chunk × ℚ} :
    x ∈ sortByScoreDesc l ↔ x ∈ l :=
  (List.perm_insertionSort _ l).mem_iff

theorem sorted_sortByScoreDesc (l : List (Chunk × ℚ)) :
    (sortByScoreDesc l).Pairwise (fun a b => b.2 ≤ a.2) :=
  List.sorted_insertionSort _ l

theorem length_sortByScoreDesc (l : List (Chunk × ℚ)) :
    (sortByScoreDesc l).length = l.length :=
  (List.perm_insertionSort _ l).length_eq

theorem positiveScored_pos {chunks : List Chunk} {scores : List ℚ}
    {pr : Chunk × ℚ} (h : pr ∈ positiveScored chunks scores) : 0 < pr.2 := by
  unfold positiveScored at h
  have h2 := List.of_mem_filter h
  simpa using h2

theorem splitNonWord_all_word : ∀ (l : List Char) (b : Bool) (acc : List Char),
    (∀ c ∈ acc, isWordChar c = true) →
    ∀ t ∈ splitNonWord l b acc, ∀ c ∈ t, isWordChar c = true := by
  intro l
  induction l with
  | nil =>
    intro b acc hacc t ht c hc
    cases b with
    | false =>
      simp only [splitNonWord, List.mem_singleton] at ht
      subst ht
      exact hacc c (by simpa using hc)
    | true =>
      simp only [splitNonWord, List.mem_singleton] at ht
      subst ht
      simp at hc
  | cons c rest ih =>
    intro b acc hacc t ht
    cases b with
    | false =>
      simp only [splitNonWord] at ht
      by_cases hw : isWordChar c
      · rw [if_pos hw] at ht
        refine ih false (c :: acc) ?_ t ht
        intro x hx
        rcases List.mem_cons.mp hx with rfl | hx2
        · exact hw
        · exact hacc x hx2
      · rw [if_neg hw] at ht
        rcases List.mem_cons.mp ht with rfl | ht2
        · intro c2 hc2
          exact hacc c2 (by simpa using hc2)
        · exact ih true [] (by simp) t ht2
    | true =>
      simp only [splitNonWord] at ht
      by_cases hw : isWordChar c
      · rw [if_pos hw] at ht
        refine ih false [c] ?_ t ht
        intro x hx
        rcases List.mem_cons.mp hx with rfl | hx2
        · exact hw
        · simp at hx2
      · rw [if_neg hw] at ht
        exact ih true [] (by simp) t ht

/-- C7 (counterexample): the token list for the query `!fox` contains an
empty token — JS `split(/\W+/)` keeps the empty piece produced by a leading
separator run, contradicting the claim that empty tokens are discarded. -/
theorem query_tokens_empty_token :
    queryTokens ("!fox") = ["", "fox"] ∧ queryTokens ("!fox") ≠ ["fox"] := by
  constructor <;> decide

/-- C7 (amended): the token list handed to the ranking function is the query
split on maximal runs of non-word characters; every token consists solely of
word characters, and a query beginning with a non-word character contributes
an empty first token (symmetrically for a trailing one), rather than having
empty tokens discarded. -/
theorem query_tokens_word_runs (q : String) :
    (∀ t ∈ queryTokens q, ∀ c ∈ t.data, isWordChar c = true) ∧
    (∀ c cs, q.data = c :: cs → isWordChar c = false →
      (queryTokens q).head? = some ("")) := by
  constructor
  · intro t ht c hc
    unfold queryTokens at ht
    rcases List.mem_map.mp ht with ⟨tl, htl, rfl⟩
    exact splitNonWord_all_word q.data false [] (by simp) tl htl c (by simpa using hc)
  · intro c cs hq hc
    unfold queryTokens
    rw [hq]
    simp [splitNonWord, hc]

/-- Witness for the amended C7 theorem at concrete inputs. -/
theorem query_tokens_word_runs_witness :
    isWordChar 'f' = true ∧ (queryTokens ("!a")).head? = some ("") :=
  ⟨(query_tokens_word_runs ("f")).1 ("f") (by decide) 'f' (by decide),
   (query_tokens_word_runs ("!a")).2 '!' (['a']) (by decide) (by decide)⟩

/-- C5 (code bug): the catch block of `resolveAndValidatePath` tests
`error.code !== 'ENOENT'` before throwing `Path does not exist`, so a stat
failure because the path does not exist (ENOENT) is reported as the
`Failed to access path stats` wrapper, and any other node stat failure
(here EACCES) is reported as `Path does not exist` — the exact opposite of
the claimed mapping. -/
theorem stat_error_branches_swapped :
    resolveAndValidatePath envStatEnoent (some ("sub")) =
      Except.error ("Failed to access path stats for /w/sub: Error: ENOENT: no such file or directory, stat /w/sub") ∧
    resolveAndValidatePath envStatEacces (some ("sub")) =
      Except.error ("Path does not exist: /w/sub") := by
  constructor <;> rfl

/-- C10: parameter validation never checks numeric ranges: for a well-typed
request with `chunk_size = 0` and `overlap = 5` (zero chunk size and
overlap exceeding it), `validateToolParams` accepts, the effective chunking
parameters handed on by `execute` are exactly those values, and `execute`
reaches the chunking loop with them — where the loop never exits (the
embedded loop exhausts any fuel bound, result `none`). -/
theorem range_unvalidated_accepted :
    validateToolParams envDiverge paramsDiverge = none ∧
    effectiveChunkSize paramsDiverge = 0 ∧
    effectiveOverlap paramsDiverge = 5 ∧
    chunkFile ("f.txt") ("a\nb") 0 5 = none ∧
    execute envDiverge paramsDiverge = none := by
  refine ⟨rfl, rfl, rfl, by decide, by decide⟩

/-- C3 (counterexample): with two chunks tied at score 1 the returned list
keeps both, in accumulation order, so the scores are not strictly
descending. -/
theorem top_results_tie_not_strict :
    selectTopResults [chunkA, chunkB] [1, 1] = [(chunkA, 1), (chunkB, 1)] ∧
    ¬ StrictlyDescending (selectTopResults [chunkA, chunkB] [1, 1]) := by
  constructor
  · decide
  · unfold StrictlyDescending
    decide

/-- C3 (amended): for every corpus and parallel score list the returned
result list contains only strictly positive scores, is sorted by score in
non-increasing (descending, but not necessarily strictly descending) order,
and has length at most 10. -/
theorem top_results_positive_sorted_bounded (chunks : List Chunk) (scores : List ℚ) :
    (∀ pr ∈ selectTopResults chunks scores, 0 < pr.2) ∧
    (selectTopResults chunks scores).Pairwise (fun a b => b.2 ≤ a.2) ∧
    (selectTopResults chunks scores).length ≤ 10 := by
  refine ⟨?_, ?_, ?_⟩
  · intro pr hpr
    have h1 : pr ∈ sortByScoreDesc (positiveScored chunks scores) :=
      (List.take_sublist 10 _).subset hpr
    exact positiveScored_pos (mem_sortByScoreDesc.mp h1)
  · exact List.Pairwise.sublist (List.take_sublist 10 _) (sorted_sortByScoreDesc _)
  · unfold selectTopResults
    rw [List.length_take]
    omega

/-- C8 (counterexample): with eleven chunks all scoring 1, eleven chunks
survive scoring but the header's `matchCount` is the truncated list's
length, 10 — the header does not state the total number of surviving
chunks. -/
theorem header_count_truncated :
    (positiveScored chunks11 scores11).length = 11 ∧
    matchCountOf chunks11 scores11 = 10 := by
  constructor <;> decide

/-- C8 (amended): the header's match count is the length of the truncated
top-results list, `min(survivors, 10)`, worded `match` exactly when that
count is 1. -/
theorem header_count_min_ten (chunks : List Chunk) (scores : List ℚ) :
    matchCountOf chunks scores = min (positiveScored chunks scores).length 10 ∧
    (matchTerm (matchCountOf chunks scores) = "match" ↔
      matchCountOf chunks scores = 1) := by
  constructor
  · unfold matchCountOf selectTopResults
    rw [List.length_take, length_sortByScoreDesc]
    omega
  · unfold matchTerm
    by_cases h : matchCountOf chunks scores = 1
    · rw [if_pos h]
      simp [h]
    · rw [if_neg h]
      constructor
      · intro hm
        exact absurd hm (by decide)
      · intro h1
        exact absurd h1 h

/-- C2: whenever the requested search path, resolved against the configured
target directory, falls outside every permitted workspace root, validation
fails with the out-of-workspace message (naming the attempted path and the
permitted roots) and `execute` returns the corresponding error result.  The
environment — including the file-enumeration and ranking oracles — is
universally quantified, so the outcome is independent of them: no
enumeration, chunking or scoring influences it.  The resolution model
processes every `..` segment, so the conclusion holds however many of them
the path uses. -/
theorem out_of_workspace_rejected (env : ToolEnv) (p : SearchParams) (rp : String)
    (hp : p.path = some rp) (hne : rp ≠ "")
    (hout : isPathWithinWorkspace env.workspaceDirs (resolvePath env.targetDir rp) = false) :
    validateToolParams env p = some (outOfWorkspaceMsg rp env.workspaceDirs) ∧
    execute env p = some
      { llmContent := "Error: Invalid parameters provided. Reason: " ++
          outOfWorkspaceMsg rp env.workspaceDirs,
        returnDisplay := "Model provided invalid parameters. Error: " ++
          outOfWorkspaceMsg rp env.workspaceDirs } := by
  have hres : resolveAndValidatePath env (some rp) =
      Except.error (outOfWorkspaceMsg rp env.workspaceDirs) := by
    simp only [resolveAndValidatePath]
    rw [if_neg hne, if_neg (by simp [hout])]
  have hval : validateToolParams env p = some (outOfWorkspaceMsg rp env.workspaceDirs) := by
    simp only [validateToolParams, schemaValidate, hp]
    rw [if_neg hne, hres]
  refine ⟨hval, ?_⟩
  simp only [execute, hval]

/-- Witness for C2: a request path built from `..` segments that escapes
the workspace root `/home/u/p` is rejected with the out-of-workspace error. -/
theorem out_of_workspace_rejected_witness :
    execute envOow paramsOow = some
      { llmContent := "Error: Invalid parameters provided. Reason: " ++
          outOfWorkspaceMsg ("../../etc") (envOow.workspaceDirs),
        returnDisplay := "Model provided invalid parameters. Error: " ++
          outOfWorkspaceMsg ("../../etc") (envOow.workspaceDirs) } :=
  (out_of_workspace_rejected envOow paramsOow ("../../etc") rfl (by decide) (by decide)).2

/-- C4 (counterexample): with the default parameters, a fully empty file
does not yield zero chunks: JS line splitting of the empty string gives one
empty line, so one chunk covering lines 1-1 with empty content is produced
and does enter the corpus. -/
theorem empty_file_one_chunk :
    chunkFile ("f") ("") 100 20 =
      some [{ filePath := "f", startLine := 1, endLine := 1, content := "" }] ∧
    chunkFile ("f") ("") 100 20 ≠ some [] := by
  constructor <;> decide

/-- C4 (amended): line splitting never yields zero lines (the zero-line
guard in `createChunks` is unreachable), and a fully empty file yields
exactly one chunk, spanning lines 1-1 with empty content, for every chunk
size of at least 1 and any overlap. -/
theorem empty_file_chunk_amended (name : String) (S O : Int) (hS : 1 ≤ S) :
    chunkFile name ("") S O =
      some [{ filePath := name, startLine := 1, endLine := 1, content := "" }] ∧
    (∀ content : String, splitLines content ≠ []) := by
  constructor
  · have h2 : chunkFile name ("") S O = chunkLoop name [""] S O 2 0 [] := rfl
    rw [h2]
    simp only [chunkLoop]
    rw [if_pos (by norm_num : (0 : Int) < (([("" : String)].length : Nat) : Int))]
    have hmin : min ((0 : Int) + S) ((([("" : String)].length : Nat) : Int)) = 1 := by
      simp only [List.length_cons, List.length_nil]
      push_cast
      omega
    rw [hmin]
    rw [if_pos (by norm_num)]
    simp only [List.nil_append]
    rfl
  · intro content
    exact splitLinesAux_ne_nil content.data []

/-- Witness for the amended C4 theorem at concrete parameters. -/
theorem empty_file_chunk_amended_witness :
    chunkFile ("g") ("") 100 20 =
      some [{ filePath := "g", startLine := 1, endLine := 1, content := "" }] :=
  (empty_file_chunk_amended ("g") 100 20 (by norm_num)).1

theorem execute_noMatches_of_no_positive (env : ToolEnv) (p : SearchParams)
    (dopt : Option (List String)) (allChunks : List Chunk)
    (hv : validateToolParams env p = none)
    (hres : resolveAndValidatePath env p.path = Except.ok dopt)
    (hg : gatherAllChunks env p.includeGlob (effectiveChunkSize p) (effectiveOverlap p)
        (chosenDirs env dopt) = some allChunks)
    (hne : allChunks ≠ [])
    (hpos : positiveScored allChunks
        (env.ranker (allChunks.map Chunk.content) (queryTokens p.query)) = []) :
    execute env p =
      some { llmContent := noMatchesMsg p, returnDisplay := "No matches found" } := by
  simp only [execute, hv, hres, hg]
  rw [if_neg (by simpa using hne)]
  rw [if_pos (by simp [selectTopResults, hpos, sortByScoreDesc, List.insertionSort])]

/-- C6: once validation passes and the path resolves, (a) gathering zero
chunks across all search roots makes `execute` return the distinct no-files
outcome, naming query, search path and include filter; (b) for a non-empty
corpus, whenever the ranker returns no strictly positive score — chunks
existed but none scored strictly positive, for any reason — `execute`
returns the distinct no-matches outcome (never an error); (c) in
particular, a non-empty corpus none of whose chunks contains any query
token produces the no-matches outcome, via the per-chunk ranker contract. -/
theorem no_files_no_matches_outcomes (env : ToolEnv) (p : SearchParams)
    (dopt : Option (List String))
    (hv : validateToolParams env p = none)
    (hres : resolveAndValidatePath env p.path = Except.ok dopt) :
    (gatherAllChunks env p.includeGlob (effectiveChunkSize p) (effectiveOverlap p)
        (chosenDirs env dopt) = some [] →
      execute env p =
        some { llmContent := noFilesMsg p, returnDisplay := "No files found" }) ∧
    (∀ allChunks,
      gatherAllChunks env p.includeGlob (effectiveChunkSize p) (effectiveOverlap p)
          (chosenDirs env dopt) = some allChunks →
      allChunks ≠ [] →
      (∀ s ∈ env.ranker (allChunks.map Chunk.content) (queryTokens p.query), s ≤ 0) →
      execute env p =
        some { llmContent := noMatchesMsg p, returnDisplay := "No matches found" }) ∧
    (∀ allChunks,
      gatherAllChunks env p.includeGlob (effectiveChunkSize p) (effectiveOverlap p)
          (chosenDirs env dopt) = some allChunks →
      allChunks ≠ [] →
      RankerContract env.ranker →
      (∀ t ∈ queryTokens p.query, ∀ c ∈ allChunks, tokenOccurs t c.content = false) →
      execute env p =
        some { llmContent := noMatchesMsg p, returnDisplay := "No matches found" }) := by
  refine ⟨?_, ?_, ?_⟩
  · intro hg
    simp only [execute, hv, hres, hg]
    rfl
  · intro allChunks hg hne hscores
    apply execute_noMatches_of_no_positive env p dopt allChunks hv hres hg hne
    rw [positiveScored, List.filter_eq_nil_iff]
    intro pr hpr
    have h2 : pr.2 ∈ env.ranker (allChunks.map Chunk.content) (queryTokens p.query) := by
      rcases pr with ⟨c, s⟩
      exact (List.of_mem_zip hpr).2
    have hle := hscores pr.2 h2
    simp only [decide_eq_true_eq]
    exact not_lt.mpr hle
  · intro allChunks hg hne hrc htok
    apply execute_noMatches_of_no_positive env p dopt allChunks hv hres hg hne
    rw [positiveScored, List.filter_eq_nil_iff]
    intro pr hpr
    rcases List.mem_iff_get.mp hpr with ⟨⟨i, hiz⟩, hget⟩
    have hlz := List.length_zip allChunks
      (env.ranker (allChunks.map Chunk.content) (queryTokens p.query))
    have hic : i < allChunks.length := by
      rw [hlz] at hiz
      omega
    have his : i < (env.ranker (allChunks.map Chunk.content) (queryTokens p.query)).length := by
      rw [hlz] at hiz
      omega
    have hz : (allChunks.zip
          (env.ranker (allChunks.map Chunk.content) (queryTokens p.query))).get ⟨i, hiz⟩ =
        (allChunks.get ⟨i, hic⟩,
          (env.ranker (allChunks.map Chunk.content) (queryTokens p.query)).get ⟨i, his⟩) := by
      simp [List.get_eq_getElem, List.getElem_zip]
    rw [← hget, hz]
    simp only [decide_eq_true_eq]
    apply not_lt.mpr
    have hid : i < (allChunks.map Chunk.content).length := by
      simp only [List.length_map]
      exact hic
    refine hrc (allChunks.map Chunk.content) (queryTokens p.query) i his hid ?_
    intro t ht
    have hdoc : (allChunks.map Chunk.content).get ⟨i, hid⟩ =
        (allChunks.get ⟨i, hic⟩).content := by
      simp [List.get_eq_getElem, List.getElem_map]
    rw [hdoc]
    exact htok t ht (allChunks.get ⟨i, hic⟩) (List.get_mem allChunks i hic)

/-- Witness for C6 at concrete environments: an empty enumeration produces
the no-files outcome, and a one-file corpus with a token-free query
produces the no-matches outcome through the per-chunk ranker contract. -/
theorem no_files_no_matches_outcomes_witness :
    execute envNoFiles paramsPlain =
      some { llmContent := noFilesMsg paramsPlain, returnDisplay := "No files found" } ∧
    execute envNoMatches paramsPlain =
      some { llmContent := noMatchesMsg paramsPlain, returnDisplay := "No matches found" } := by
  constructor
  · exact (no_files_no_matches_outcomes envNoFiles paramsPlain none rfl rfl).1 (by decide)
  · refine (no_files_no_matches_outcomes envNoMatches paramsPlain none rfl rfl).2.2
      [{ filePath := "a.txt", startLine := 1, endLine := 2, content := "hello\nworld" }]
      (by decide) (by decide) ?_ (by decide)
    intro docs toks i hi hd htf
    simp [envNoMatches, List.get_eq_getElem, List.getElem_map]

theorem chunkLoop_eq (name : String) (lines : List String) (S O : Nat) (hO : O < S) :
    ∀ (fuel i : Nat) (acc : List Chunk), i < lines.length →
      lines.length - i ≤ fuel →
      chunkLoop name lines (S : Int) (O : Int) fuel (i : Int) acc =
        some (acc ++ chunksFrom name lines S O i) := by
  intro fuel
  induction fuel with
  | zero =>
    intro i acc hi hf
    omega
  | succ fuel ih =>
    intro i acc hi hf
    have hiZ : (i : Int) < (lines.length : Int) := by exact_mod_cast hi
    have hminZ : min ((i : Int) + (S : Int)) ((lines.length : Int)) =
        ((min (i + S) lines.length : Nat) : Int) := by
      push_cast
      rfl
    simp only [chunkLoop]
    rw [if_pos hiZ]
    by_cases hbreak : lines.length ≤ i + S
    · have hend : min (i + S) lines.length = lines.length := min_eq_right hbreak
      rw [if_pos (by rw [hminZ, hend])]
      have hcf : chunksFrom name lines S O i = [mkChunk name lines S i] := by
        rw [chunksFrom, dif_pos ⟨hO, hi⟩, dif_pos hbreak]
      rw [hcf, hminZ, jsSlice_coe]
      rfl
    · rw [if_neg (by
        intro hcc
        rw [hminZ] at hcc
        have h3 : min (i + S) lines.length = lines.length := by exact_mod_cast hcc
        omega)]
      have hstep : (i : Int) + ((S : Int) - (O : Int)) = ((i + (S - O) : Nat) : Int) := by
        omega
      rw [hstep]
      rw [ih (i + (S - O)) _ (by omega) (by omega)]
      have hcf : chunksFrom name lines S O i =
          mkChunk name lines S i :: chunksFrom name lines S O (i + (S - O)) := by
        rw [chunksFrom, dif_pos ⟨hO, hi⟩, dif_neg hbreak]
      rw [hcf, hminZ, jsSlice_coe]
      simp [mkChunk, List.append_assoc]

theorem cntFrom_step (L S O i : Nat) (hO : O < S) (hbreak : i + S < L) :
    cntFrom L S O i = cntFrom L S O (i + (S - O)) + 1 := by
  by_cases h2 : L ≤ (i + (S - O)) + S
  · rw [cntFrom, if_neg (by omega), cntFrom, if_pos h2]
    have hc := ceil_eq_two (L - i - O) (S - O) (by omega) (by omega) (by omega)
    rw [hc]
  · rw [cntFrom, if_neg (by omega), cntFrom, if_neg h2]
    have hc := ceil_succ (L - i - O) (S - O) (by omega) (by omega)
    have harg : L - i - O - (S - O) = L - (i + (S - O)) - O := by omega
    rw [hc, harg]

theorem chunksFrom_eq_map (name : String) (lines : List String) (S O : Nat) (hO : O < S) :
    ∀ (m i : Nat), i < lines.length → lines.length - i ≤ m →
      chunksFrom name lines S O i =
        (List.range (cntFrom lines.length S O i)).map
          (fun k => mkChunk name lines S (i + k * (S - O))) := by
  intro m
  induction m with
  | zero =>
    intro i hi hm
    omega
  | succ m ih =>
    intro i hi hm
    by_cases hbreak : lines.length ≤ i + S
    · rw [chunksFrom, dif_pos ⟨hO, hi⟩, dif_pos hbreak]
      rw [cntFrom, if_pos hbreak]
      rw [show List.range 1 = [0] from rfl]
      simp only [List.map_cons, List.map_nil, Nat.zero_mul, Nat.add_zero]
    · rw [chunksFrom, dif_pos ⟨hO, hi⟩, dif_neg hbreak]
      rw [ih (i + (S - O)) (by omega) (by omega)]
      rw [cntFrom_step lines.length S O i hO (by omega)]
      rw [List.range_succ_eq_map]
      simp only [List.map_cons, List.map_map]
      congr 1
      · congr 1
        ring
      · apply List.map_congr_left
        intro k _
        simp only [Function.comp_apply]
        congr 1
        rw [Nat.succ_mul]
        ring

theorem cnt_last (L S O : Nat) (hO : O < S) (hL : 1 ≤ L) :
    L ≤ (cntFrom L S O 0 - 1) * (S - O) + S := by
  by_cases hb : L ≤ 0 + S
  · rw [cntFrom, if_pos hb]
    omega
  · rw [cntFrom, if_neg hb]
    have hx : 1 ≤ L - 0 - O := by omega
    have h1 := ceil_mul_ge (L - 0 - O) (S - O) (by omega) hx
    set n := (L - 0 - O + (S - O) - 1) / (S - O) with hn
    have hn1 : 1 ≤ n := by
      rw [hn, ceil_pred (L - 0 - O) (S - O) (by omega) hx]
      exact Nat.le_add_left 1 _
    have h2 : (n - 1) * (S - O) + (S - O) = n * (S - O) := by
      have hne : n - 1 + 1 = n := by omega
      calc (n - 1) * (S - O) + (S - O) = (n - 1 + 1) * (S - O) := by rw [Nat.succ_mul]
        _ = n * (S - O) := by rw [hne]
    have h3 : L - 0 - O ≤ n * (S - O) := by
      rw [Nat.mul_comm (S - O) n] at h1
      exact h1
    revert h2 h3
    generalize (n - 1) * (S - O) = u
    generalize n * (S - O) = t
    intro h2 h3
    omega

theorem cnt_nonfinal (L S O k : Nat) (hO : O < S)
    (hk : k + 1 < cntFrom L S O 0) : k * (S - O) + S < L := by
  by_cases hb : L ≤ 0 + S
  · rw [cntFrom, if_pos hb] at hk
    omega
  · rw [cntFrom, if_neg hb] at hk
    have hx : 1 ≤ L - 0 - O := by omega
    rw [ceil_pred (L - 0 - O) (S - O) (by omega) hx] at hk
    set u := (L - 0 - O - 1) / (S - O) with hu
    have hku : k < u := by omega
    have h1 : u * (S - O) ≤ L - 0 - O - 1 := by
      rw [hu]
      exact Nat.div_mul_le_self _ _
    have h2 : k * (S - O) ≤ (u - 1) * (S - O) :=
      Nat.mul_le_mul_right _ (by omega)
    have h3 : (u - 1) * (S - O) + (S - O) = u * (S - O) := by
      have hue : u - 1 + 1 = u := by omega
      calc (u - 1) * (S - O) + (S - O) = (u - 1 + 1) * (S - O) := by rw [Nat.succ_mul]
        _ = u * (S - O) := by rw [hue]
    revert h1 h2 h3
    generalize k * (S - O) = a
    generalize (u - 1) * (S - O) = b
    generalize u * (S - O) = t
    intro h1 h2 h3
    omega

/-- C1: for every file content (which splits into `L ≥ 1` lines) and all
parameter values `0 ≤ O < S`, the per-file chunking produces exactly
`ceil((L - O)/(S - O))` chunks (1 when `L ≤ S`; the `if`-expression below is
that ceiling written with natural division); chunk `k` (0-based) starts at
line `1 + k(S - O)` and ends at line `min(k(S - O) + S, L)`; the first chunk
starts at line 1; the last chunk ends exactly at line `L`; and every two
consecutive chunks share exactly `O` lines (`end_k + 1 - start_(k+1) = O`,
at every boundary, the final one included). -/
theorem chunking_shape (name content : String) (S O : Nat) (hO : O < S)
    (hL : 1 ≤ (splitLines content).length) :
    ∃ cs : List Chunk,
      chunkFile name content (S : Int) (O : Int) = some cs ∧
      cs.length = (if (splitLines content).length ≤ S then 1
        else ((splitLines content).length - O + (S - O) - 1) / (S - O)) ∧
      (∀ k, (hk : k < cs.length) →
        (cs.get ⟨k, hk⟩).startLine = ((k * (S - O) : Nat) : Int) + 1 ∧
        (cs.get ⟨k, hk⟩).endLine =
          ((min (k * (S - O) + S) (splitLines content).length : Nat) : Int)) ∧
      (∀ h0 : 0 < cs.length, (cs.get ⟨0, h0⟩).startLine = 1) ∧
      (∀ h0 : 0 < cs.length,
        (cs.get ⟨cs.length - 1, by omega⟩).endLine =
          (((splitLines content).length : Nat) : Int)) ∧
      (∀ k, (hk : k + 1 < cs.length) →
        (cs.get ⟨k, by omega⟩).endLine + 1 - (cs.get ⟨k + 1, hk⟩).startLine =
          ((O : Nat) : Int)) := by
  set lines := splitLines content with hlines
  set L := lines.length with hLdef
  set n := cntFrom L S O 0 with hn
  have hL0 : 0 < L := hL
  have hcf : chunkFile name content (S : Int) (O : Int) =
      some (chunksFrom name lines S O 0) := by
    unfold chunkFile
    rw [← hlines]
    rw [if_neg (by omega)]
    rw [show (0 : Int) = ((0 : Nat) : Int) from rfl]
    rw [chunkLoop_eq name lines S O hO (L + 1) 0 [] (by omega) (by omega)]
    simp
  have hmap : chunksFrom name lines S O 0 =
      (List.range n).map (fun k => mkChunk name lines S (k * (S - O))) := by
    rw [chunksFrom_eq_map name lines S O hO L 0 (by omega) (by omega)]
    rw [hn]
    apply List.map_congr_left
    intro k _
    congr 1
    exact Nat.zero_add _
  refine ⟨(List.range n).map (fun k => mkChunk name lines S (k * (S - O))),
    by rw [hcf, hmap], ?_, ?_, ?_, ?_, ?_⟩
  · simp only [List.length_map, List.length_range]
    rw [hn, cntFrom]
    simp only [Nat.zero_add, Nat.sub_zero]
  · intro k hk
    have hget : ((List.range n).map (fun k => mkChunk name lines S (k * (S - O)))).get ⟨k, hk⟩
        = mkChunk name lines S (k * (S - O)) := by
      simp [List.get_eq_getElem, List.getElem_map, List.getElem_range]
    rw [hget]
    exact ⟨rfl, rfl⟩
  · intro h0
    have hget : ((List.range n).map (fun k => mkChunk name lines S (k * (S - O)))).get ⟨0, h0⟩
        = mkChunk name lines S (0 * (S - O)) := by
      simp [List.get_eq_getElem, List.getElem_map, List.getElem_range]
    rw [hget]
    show ((0 * (S - O) : Nat) : Int) + 1 = 1
    simp
  · intro h0
    have hlen : ((List.range n).map (fun k => mkChunk name lines S (k * (S - O)))).length = n := by
      simp
    have hget : ((List.range n).map (fun k => mkChunk name lines S (k * (S - O)))).get
        ⟨((List.range n).map (fun k => mkChunk name lines S (k * (S - O)))).length - 1, by omega⟩
        = mkChunk name lines S ((n - 1) * (S - O)) := by
      simp [List.get_eq_getElem, List.getElem_map, List.getElem_range]
    rw [hget]
    have hle := cnt_last L S O hO hL0
    rw [← hn] at hle
    show ((min ((n - 1) * (S - O) + S) L : Nat) : Int) = (L : Int)
    rw [min_eq_right hle]
  · intro k hk
    have hlen : ((List.range n).map (fun k => mkChunk name lines S (k * (S - O)))).length = n := by
      simp
    have hkn : k + 1 < n := by omega
    have hget1 : ((List.range n).map (fun k => mkChunk name lines S (k * (S - O)))).get
        ⟨k, by omega⟩ = mkChunk name lines S (k * (S - O)) := by
      simp [List.get_eq_getElem, List.getElem_map, List.getElem_range]
    have hget2 : ((List.range n).map (fun k => mkChunk name lines S (k * (S - O)))).get
        ⟨k + 1, hk⟩ = mkChunk name lines S ((k + 1) * (S - O)) := by
      simp [List.get_eq_getElem, List.getElem_map, List.getElem_range]
    rw [hget1, hget2]
    have hnf : k * (S - O) + S < L := cnt_nonfinal L S O k hO (by rw [← hn]; exact hkn)
    show ((min (k * (S - O) + S) L : Nat) : Int) + 1 -
        (((((k + 1) * (S - O)) : Nat) : Int) + 1) = ((O : Nat) : Int)
    rw [min_eq_left (le_of_lt hnf)]
    rw [Nat.succ_mul]
    push_cast [Nat.cast_sub hO.le]
    ring

/-- Witness for C1: a three-line file with chunk size 2 and overlap 1
produces two chunks. -/
theorem chunking_shape_witness :
    ∃ cs : List Chunk,
      chunkFile ("f") ("a\nb\nc") ((2 : Nat) : Int) ((1 : Nat) : Int) = some cs ∧
      cs.length = 2 := by
  obtain ⟨cs, h1, h2, _⟩ := chunking_shape ("f") ("a\nb\nc") 2 1 (by omega) (by decide)
  refine ⟨cs, h1, ?_⟩
  rw [h2]
  decide

/-- C9: for every file content and natural parameters with
`overlap < chunk_size` (the invariant making the loop step
`chunk_size - overlap` strictly positive), the per-file chunking loop
terminates: within the fuel bound `lines + 1` it returns a result instead
of exhausting the bound. -/
theorem chunk_loop_terminates (name content : String) (S O : Nat) (hO : O < S) :
    ∃ cs, chunkFile name content (S : Int) (O : Int) = some cs := by
  refine ⟨chunksFrom name (splitLines content) S O 0, ?_⟩
  unfold chunkFile
  have hL : 0 < (splitLines content).length := splitLines_length_pos content
  rw [if_neg (by omega)]
  rw [show (0 : Int) = ((0 : Nat) : Int) from rfl]
  rw [chunkLoop_eq name (splitLines content) S O hO ((splitLines content).length + 1) 0 []
    (by omega) (by omega)]
  simp

/-- Witness for C9 at a concrete file and parameters. -/
theorem chunk_loop_terminates_witness :
    ∃ cs, chunkFile ("f") ("a\nb\nc") ((2 : Nat) : Int) ((1 : Nat) : Int) = some cs :=
  chunk_loop_terminates ("f") ("a\nb\nc") 2 1 (by omega)
